import Mathlib

/-!
# Kubernetes-Controller: the event → work queue → reconcile pipeline

A shallow embedding of `pkg/controller/controller.go`.

* Go values of type `error` are `Option String` (`none` is `nil`).
* Everything a function does to the outside world (queue calls, `fmt.Println`,
  `log.Printf`, `runtime.HandleError`, `go` statements) is recorded, in program
  order, as a list of `Effect`s.
* A Go panic is an explicit outcome (`Outcome.panicked`).
* The work queue is the client-go `workqueue` package, which is not among the
  repository's sources; it is modelled from §4.2 of the specification.
-/

namespace KubeController

/-! ## Data model -/

/-- Event is the work item put on the queue (`type Event struct`): three string
fields. The queue receives it by value as an `interface{}`; Go compares such
values with `==`, which for a struct compares every field. The derived
`DecidableEq` is exactly that comparison. -/
structure Event where
  key : String
  eventType : String
  podName : String
deriving DecidableEq, Repr

/-- The parts of a `v1.Pod` that the controller reads: the namespace and name of
its metadata and the names of `Spec.Containers`, in order. -/
structure Pod where
  Namespace : String
  Name : String
  Containers : List String
deriving DecidableEq, Repr

/-- An `interface{}` value handed to the controller: the nil interface, a
`*v1.Pod`, or a value of some other dynamic type (named by `typeName`). -/
inductive Obj where
  | nil
  | pod (p : Pod)
  | other (typeName : String)
deriving DecidableEq, Repr

/-- An argument of a `log.Printf` call. -/
inductive LogArg where
  | str (s : String)
  | item (e : Event)
  | err (msg : String)
deriving DecidableEq, Repr

/-- The externally visible actions of the controller, one constructor per kind
of call. `println s` is `fmt.Println(s)` (standard output, a newline is added
after `s`); `logPrintf` is `log.Printf` (the logger, standard error);
`handleError` is `runtime.HandleError`; `startInformer` is
`go c.informer.Run(stopCh)`; `waitForCacheSync` is `cache.WaitForCacheSync`;
`startWorker` is `go wait.Until(c.runWorker, time.Second, stopCh)`; `awaitStop`
is the receive `<-stopCh`. -/
inductive Effect where
  | queueAdd (item : Event)
  | queueGet
  | queueDone (item : Event)
  | queueForget (item : Event)
  | queueNumRequeues (item : Event)
  | queueAddRateLimited (item : Event)
  | queueShutDown
  | handleError (msg : String)
  | logPrintf (format : String) (args : List LogArg)
  | println (line : String)
  | startInformer
  | waitForCacheSync
  | startWorker
  | awaitStop
deriving DecidableEq, Repr

/-- How a call ends: it returns a value, or it panics. Either way the effects
performed up to that point are recorded. -/
inductive Outcome (α : Type) where
  | returned (effects : List Effect) (value : α)
  | panicked (effects : List Effect)
deriving Repr

/-- The effects performed by a call, whether it returned or panicked. -/
def Outcome.effects {α : Type} : Outcome α → List Effect
  | .returned effects _ => effects
  | .panicked effects => effects

/-- Whether the call panicked. -/
def Outcome.isPanic {α : Type} : Outcome α → Bool
  | .returned _ _ => false
  | .panicked _ => true

/-- The returned value, if the call returned. -/
def Outcome.value {α : Type} : Outcome α → Option α
  | .returned _ v => some v
  | .panicked _ => none

/-- Sequencing: `pre` happened first, then the call `o`. -/
def Outcome.after {α : Type} (pre : List Effect) : Outcome α → Outcome α
  | .returned effects v => .returned (pre ++ effects) v
  | .panicked effects => .panicked (pre ++ effects)

/-- The type assertion `obj.(*v1.Pod)` in its one-result form: it yields the pod
when the dynamic type is `*v1.Pod` and panics (`none`) otherwise, in
particular on the nil interface. -/
def assertPod : Obj → Option Pod
  | .pod p => some p
  | _ => none

/-! ## The work queue -/

/-- Modelled from the spec: the work queue (`workqueue.RateLimitingInterface`
from client-go) is not among the repository's sources; this is the state behind
§4.2. `queue` is the order in which pending items are handed out, `dirty` the
set of items that need processing, `processing` the set of in-flight items,
`waiting` the items re-queued with a delay that has not elapsed yet (each with
the failure count that fixes its exponential delay), `failures` the per-item
failure counter. Items are compared with the item type's own equality. -/
structure Queue where
  queue : List Event
  dirty : List Event
  processing : List Event
  waiting : List (Event × Nat)
  failures : Event → Nat
  shuttingDown : Bool

/-- Modelled from the spec: the queue built by `workqueue.NewRateLimitingQueue`
in `NewController`: empty, every failure counter zero, not shutting down. -/
def Queue.new : Queue :=
  { queue := [], dirty := [], processing := [], waiting := [],
    failures := fun _ => 0, shuttingDown := false }

/-- Modelled from the spec: `Add(event)` of §4.2: enqueues; an item equal to
one already pending is coalesced; an item equal to one in-flight is only marked
dirty, to surface after `Done`. Nothing is accepted once shutting down. -/
def Queue.Add (q : Queue) (item : Event) : Queue :=
  if q.shuttingDown then q
  else if item ∈ q.dirty then q
  else if item ∈ q.processing then { q with dirty := item :: q.dirty }
  else { q with dirty := item :: q.dirty, queue := q.queue ++ [item] }

/-- Modelled from the spec: `Get()` of §4.2. `none`: the caller blocks (nothing
pending, not shutting down). `some (none, q)`: shutting down. `some (some item,
q)`: the head item, now marked in-flight and no longer dirty. -/
def Queue.Get (q : Queue) : Option (Option Event × Queue) :=
  match q.queue with
  | [] => if q.shuttingDown then some (none, q) else none
  | item :: rest =>
    some (some item,
      { q with queue := rest,
               processing := if item ∈ q.processing then q.processing else item :: q.processing,
               dirty := q.dirty.filter (fun x => decide (x ≠ item)) })

/-- Modelled from the spec: `Done(item)` of §4.2: the item is no longer
in-flight; if it was re-added meanwhile it now surfaces in the queue. -/
def Queue.Done (q : Queue) (item : Event) : Queue :=
  let processing := q.processing.filter (fun x => decide (x ≠ item))
  if item ∈ q.dirty then { q with processing := processing, queue := q.queue ++ [item] }
  else { q with processing := processing }

/-- Modelled from the spec: `NumRequeues(item)` of §4.2: the current failure
counter. -/
def Queue.NumRequeues (q : Queue) (item : Event) : Nat :=
  q.failures item

/-- Modelled from the spec: `Forget(item)` of §4.2: resets the failure counter
of the item to zero. -/
def Queue.Forget (q : Queue) (item : Event) : Queue :=
  { q with failures := fun x => if x = item then 0 else q.failures x }

/-- Modelled from the spec: `AddRateLimited(item)` of §4.2: counts one more
failure of the item and re-queues it with a delay fixed by the count so far
(it waits until `Queue.release`); once shutting down nothing is re-queued. -/
def Queue.AddRateLimited (q : Queue) (item : Event) : Queue :=
  let n := q.failures item
  let failures := fun x => if x = item then n + 1 else q.failures x
  if q.shuttingDown then { q with failures := failures }
  else { q with failures := failures, waiting := q.waiting ++ [(item, n)] }

/-- Modelled from the spec: the delay of the `i`-th waiting item has elapsed: it
leaves `waiting` and is added to the queue with `Add`. -/
def Queue.release (q : Queue) (i : Nat) : Queue :=
  match q.waiting.get? i with
  | none => q
  | some (item, _) => Queue.Add { q with waiting := q.waiting.eraseIdx i } item

/-- Modelled from the spec: `ShutDown()` of §4.2. -/
def Queue.ShutDown (q : Queue) : Queue :=
  { q with shuttingDown := true }

/-! ## The controller -/

/-- The three results of `c.indexer.GetByKey(key)`: the object, whether the key
exists, and the error. -/
structure Lookup where
  obj : Obj
  found : Bool
  err : Option String
deriving DecidableEq, Repr

/-- The fields of `Controller` that its methods use: the Local Cache, as its
`GetByKey` function, and the work queue. -/
structure Controller where
  indexer : String → Lookup
  queue : Queue

/-- The state wired by `NewController`: a fresh queue and a Local Cache that
holds nothing yet. -/
def NewController : Controller :=
  { indexer := fun _ => { obj := .nil, found := false, err := none }, queue := Queue.new }

/-- Modelled from the spec: `cache.MetaNamespaceKeyFunc` of client-go (§6: a
way to extract a stable identity key): `namespace/name`, or the bare name for an
empty namespace; an error for an object without metadata. The callbacks below
take the key function as a parameter; this one serves as a concrete instance. -/
def MetaNamespaceKeyFunc : Obj → Except String String
  | .pod p => if p.Namespace = "" then .ok p.Name else .ok (p.Namespace ++ "/" ++ p.Name)
  | _ => .error "object has no meta"

/-- Controller.Add: the informer callback for a created object. -/
def Controller.Add (keyFunc : Obj → Except String String) (c : Controller) (obj : Obj) :
    Outcome Unit × Controller :=
  match keyFunc obj with
  | .ok key =>
    match assertPod obj with
    | some p =>
      let event : Event := { key := key, eventType := "create", podName := p.Name }
      (.returned [.queueAdd event] (), { c with queue := c.queue.Add event })
    | none => (.panicked [], c)
  | .error _ => (.returned [] (), c)

/-- Controller.Update: the informer callback for an updated object. -/
def Controller.Update (keyFunc : Obj → Except String String) (c : Controller)
    (oldObj newObj : Obj) : Outcome Unit × Controller :=
  match keyFunc newObj with
  | .ok key =>
    match assertPod oldObj with
    | some p =>
      let event : Event := { key := key, eventType := "update", podName := p.Name }
      (.returned [.queueAdd event] (), { c with queue := c.queue.Add event })
    | none => (.panicked [], c)
  | .error _ => (.returned [] (), c)

/-- Controller.Delete: the informer callback for a deleted object. -/
def Controller.Delete (keyFunc : Obj → Except String String) (c : Controller) (obj : Obj) :
    Outcome Unit × Controller :=
  match keyFunc obj with
  | .ok key =>
    match assertPod obj with
    | some p =>
      let event : Event := { key := key, eventType := "delete", podName := p.Name }
      (.returned [.queueAdd event] (), { c with queue := c.queue.Add event })
    | none => (.panicked [], c)
  | .error _ => (.returned [] (), c)

/-- The decimal rendering `strconv.Itoa` of a non-negative number. -/
def Itoa (n : Nat) : String := toString n

/-- The loop of `printContainersOfPod`: one line per container, numbered from
`index + 1`. -/
def containerLines : Nat → List String → List Effect
  | _, [] => []
  | index, name :: rest =>
    .println (Itoa (index + 1) ++ ".  " ++ name) :: containerLines (index + 1) rest

/-- The function printContainersOfPod. -/
def printContainersOfPod (obj : Obj) : Outcome Unit :=
  match assertPod obj with
  | none => .panicked []
  | some p =>
    Outcome.after [.println ("Containers in Pod " ++ p.Name ++ " : ")]
      (match assertPod obj with
       | none => .panicked []
       | some p2 => .returned (containerLines 0 p2.Containers) ())

/-- The function objectCreated. -/
def objectCreated (obj : Obj) : Outcome Unit :=
  match assertPod obj with
  | none => .panicked []
  | some p =>
    Outcome.after [.println ("\nA Pod with name " ++ p.Name ++ " has been created.")]
      (printContainersOfPod obj)

/-- The function objectUpdated. -/
def objectUpdated (obj : Obj) : Outcome Unit :=
  match assertPod obj with
  | none => .panicked []
  | some p =>
    Outcome.after [.println ("\nA Pod with name " ++ p.Name ++ " has been updated.")]
      (printContainersOfPod obj)

/-- The function objectDeleted. -/
def objectDeleted (podName : String) : Outcome Unit :=
  .returned [.println ("\nA Pod with name " ++ podName ++ " has been deleted.")] ()

/-- Controller.takeAction: looks the key up, logs a lookup error, dispatches on
the event type, and returns the error `nil`. -/
def Controller.takeAction (c : Controller) (event : Event) : Outcome (Option String) :=
  let r := c.indexer event.key
  let logged : List Effect :=
    match r.err with
    | some err =>
      [.logPrintf "Fetching object with key %s from store failed with %v"
        [.str event.key, .err err]]
    | none => []
  let dispatched : Outcome Unit :=
    if event.eventType = "create" then objectCreated r.obj
    else if event.eventType = "update" then objectUpdated r.obj
    else if event.eventType = "delete" then objectDeleted event.podName
    else .returned [] ()
  match dispatched with
  | .returned effects _ => .returned (logged ++ effects) none
  | .panicked effects => .panicked (logged ++ effects)

/-- Controller.handleErr: forget on success; on failure re-queue rate limited
while the item was re-queued fewer than 5 times, else forget and report. -/
def Controller.handleErr (c : Controller) (err : Option String) (key : Event) :
    List Effect × Controller :=
  match err with
  | none => ([.queueForget key], { c with queue := c.queue.Forget key })
  | some e =>
    if c.queue.NumRequeues key < 5 then
      ([.queueNumRequeues key,
        .logPrintf "Error syncing ingress %v: %v" [.item key, .err e],
        .queueAddRateLimited key],
       { c with queue := c.queue.AddRateLimited key })
    else
      ([.queueNumRequeues key,
        .queueForget key,
        .handleError e,
        .logPrintf "Dropping ingress %q out of the queue: %v" [.item key, .err e]],
       { c with queue := c.queue.Forget key })

/-- Controller.processNextItem. `none`: `Get` blocks. Otherwise the outcome
(the returned bool, or a panic) and the controller afterwards. The deferred
`Done` runs last, also when `takeAction` panics. -/
def Controller.processNextItem (c : Controller) : Option (Outcome Bool × Controller) :=
  match c.queue.Get with
  | none => none
  | some (none, q) => some (.returned [.queueGet] false, { c with queue := q })
  | some (some event, q) =>
    let c1 : Controller := { c with queue := q }
    match c1.takeAction event with
    | .returned effects err =>
      let h := c1.handleErr err event
      some (.returned ([.queueGet] ++ effects ++ h.1 ++ [.queueDone event]) true,
            { h.2 with queue := h.2.queue.Done event })
    | .panicked effects =>
      some (.panicked ([.queueGet] ++ effects ++ [.queueDone event]),
            { c1 with queue := c1.queue.Done event })

/-- Controller.Run, for a given result `synced` of `cache.WaitForCacheSync`:
the effects in program order (the deferred `ShutDown` last) and the controller
when `Run` returns. -/
def Controller.Run (c : Controller) (threadiness : Int) (synced : Bool) :
    List Effect × Controller :=
  let start : List Effect := [.startInformer, .waitForCacheSync]
  let body : List Effect :=
    if synced then List.replicate threadiness.toNat Effect.startWorker ++ [.awaitStop]
    else [.handleError "Timed out waiting for caches to sync"]
  (start ++ body ++ [.queueShutDown], { c with queue := c.queue.ShutDown })

/-- The effects of a `handleErr` call that re-queues. -/
def requeueEffects (key : Event) (e : String) : List Effect :=
  [.queueNumRequeues key,
   .logPrintf "Error syncing ingress %v: %v" [.item key, .err e],
   .queueAddRateLimited key]

/-- The effects of a `handleErr` call that gives up. -/
def dropEffects (key : Event) (e : String) : List Effect :=
  [.queueNumRequeues key,
   .queueForget key,
   .handleError e,
   .logPrintf "Dropping ingress %q out of the queue: %v" [.item key, .err e]]

/-! ## Runs of the system -/

/-- A run of `n` consecutive calls `handleErr(err, key)`, nothing else touching
the queue in between: the effects of all calls in order and the final state. -/
def consecutiveHandleErr (err : Option String) (key : Event) : Nat → Controller →
    List Effect × Controller
  | 0, c => ([], c)
  | n + 1, c =>
    let r := c.handleErr err key
    let rest := consecutiveHandleErr err key n r.2
    (r.1 ++ rest.1, rest.2)

/-- What can happen to a running controller: an informer callback, a change of
the Local Cache by the informer, a worker executing `processNextItem`, the delay
of a waiting item elapsing, and the queue being shut down. -/
inductive Action where
  | add (obj : Obj)
  | update (oldObj newObj : Obj)
  | delete (obj : Obj)
  | store (indexer : String → Lookup)
  | worker
  | release (i : Nat)
  | shutDown

/-- One action: the effects it performs and the controller afterwards. A worker
whose `Get` blocks does nothing. -/
def step (keyFunc : Obj → Except String String) (c : Controller) :
    Action → List Effect × Controller
  | .add obj => let r := c.Add keyFunc obj; (r.1.effects, r.2)
  | .update oldObj newObj => let r := c.Update keyFunc oldObj newObj; (r.1.effects, r.2)
  | .delete obj => let r := c.Delete keyFunc obj; (r.1.effects, r.2)
  | .store indexer => ([], { c with indexer := indexer })
  | .worker =>
    match c.processNextItem with
    | none => ([], c)
    | some r => (r.1.effects, r.2)
  | .release i => ([], { c with queue := c.queue.release i })
  | .shutDown => ([.queueShutDown], { c with queue := c.queue.ShutDown })

/-- A sequence of actions, from left to right. -/
def exec (keyFunc : Obj → Except String String) : List Action → Controller →
    List Effect × Controller
  | [], c => ([], c)
  | a :: rest, c =>
    let r := step keyFunc c a
    let r2 := exec keyFunc rest r.2
    (r.1 ++ r2.1, r2.2)

/-! ## Auxiliary definitions: observations, invariants and sample inputs -/

/-- The item of the drop scenario of the specification. -/
def scenarioItem : Event := { key := "ns/b", eventType := "create", podName := "b" }

/-- The lines written with `fmt.Println`, in order: the printed output. -/
def stdout : List Effect → List String
  | [] => []
  | .println line :: rest => line :: stdout rest
  | _ :: rest => stdout rest

/-- A pod `ns/a` with one container. -/
def podA : Pod := { Namespace := "ns", Name := "a", Containers := ["main"] }

/-- The event enqueued by `Add` for `podA`. -/
def createA : Event := { key := "ns/a", eventType := "create", podName := "a" }

/-- The event enqueued by `Update` for `podA`. -/
def updateA : Event := { key := "ns/a", eventType := "update", podName := "a" }

/-- The controller after the informer reported `podA` created and then updated,
with no worker running in between. -/
def afterCreateUpdate : Controller :=
  ((NewController.Add MetaNamespaceKeyFunc (.pod podA)).2.Update MetaNamespaceKeyFunc
    (.pod podA) (.pod podA)).2

/-- A Local Cache whose lookup of `ns/a` fails with an error. -/
def failingCache : Controller :=
  { indexer := fun _ => { obj := .other "tombstone", found := true, err := some "store closed" },
    queue := Queue.new }

/-- A controller whose queue is empty and has been shut down. -/
def shutDownController : Controller :=
  { indexer := NewController.indexer, queue := Queue.new.ShutDown }

/-- A controller whose Local Cache holds `podA` and whose queue holds the
create event of `podA`. -/
def presentController : Controller :=
  { indexer := fun _ => { obj := .pod podA, found := true, err := none },
    queue := Queue.new.Add createA }

/-- The queue of `presentController` after `Get` handed out `createA`. -/
def presentQueueAfterGet : Queue :=
  { queue := [], dirty := [], processing := [createA], waiting := [],
    failures := fun _ => 0, shuttingDown := false }

/-- Effects that only write text: `fmt.Println` and `log.Printf`. -/
def Effect.isOutput : Effect → Bool
  | .println _ => true
  | .logPrintf _ _ => true
  | _ => false

/-- Effects of the failure path of `handleErr`: `NumRequeues`, `AddRateLimited`
and `runtime.HandleError`. -/
def Effect.isRetry : Effect → Bool
  | .queueNumRequeues _ => true
  | .queueAddRateLimited _ => true
  | .handleError _ => true
  | _ => false

/-- The state invariant: every failure counter is zero. -/
def countersZero (c : Controller) : Prop :=
  ∀ item : Event, c.queue.NumRequeues item = 0

/-- The trace invariant: no effect of the failure path occurs. -/
def noRetry (effects : List Effect) : Prop :=
  ∀ x ∈ effects, Effect.isRetry x = false

/-- The dispatch of `takeAction`, as a function of the looked-up object. -/
def dispatch (event : Event) (obj : Obj) : Outcome Unit :=
  if event.eventType = "create" then objectCreated obj
  else if event.eventType = "update" then objectUpdated obj
  else if event.eventType = "delete" then objectDeleted event.podName
  else .returned [] ()

/-- The log entries of `takeAction` for a lookup result. -/
def lookupLog (event : Event) (r : Lookup) : List Effect :=
  match r.err with
  | some err =>
    [.logPrintf "Fetching object with key %s from store failed with %v"
      [.str event.key, .err err]]
  | none => []

/-- An event whose type is none of the three the informer callbacks produce. -/
def patchA : Event := { key := "ns/a", eventType := "patch", podName := "a" }

/-- A run: `podA` is created, the cache learns it, a worker handles the event,
`podA` is deleted, a worker handles that event. -/
def sampleRun : List Action :=
  [.add (.pod podA), .store presentController.indexer, .worker, .delete (.pod podA), .worker]

/-- A second pod, `ns/a2`, used as the new object of an update so that the old
and the new object can be told apart. -/
def podRenamed : Pod := { Namespace := "ns", Name := "a2", Containers := ["main", "sidecar"] }

/-! ## Retry policy: lemmas about the failure counter -/

theorem numRequeues_addRateLimited_self (q : Queue) (item : Event) :
    (q.AddRateLimited item).NumRequeues item = q.NumRequeues item + 1 := by
  unfold Queue.AddRateLimited Queue.NumRequeues
  by_cases h : q.shuttingDown <;> simp [h]

theorem numRequeues_addRateLimited_other (q : Queue) (item other : Event) (h : other ≠ item) :
    (q.AddRateLimited item).NumRequeues other = q.NumRequeues other := by
  unfold Queue.AddRateLimited Queue.NumRequeues
  by_cases hs : q.shuttingDown <;> simp [hs, h]

theorem numRequeues_forget_self (q : Queue) (item : Event) :
    (q.Forget item).NumRequeues item = 0 := by
  simp [Queue.Forget, Queue.NumRequeues]

theorem numRequeues_forget_other (q : Queue) (item other : Event) (h : other ≠ item) :
    (q.Forget item).NumRequeues other = q.NumRequeues other := by
  simp [Queue.Forget, Queue.NumRequeues, h]

theorem handleErr_lt (c : Controller) (item : Event) (e : String)
    (h : c.queue.NumRequeues item < 5) :
    c.handleErr (some e) item =
      (requeueEffects item e, { c with queue := c.queue.AddRateLimited item }) := by
  simp [Controller.handleErr, h, requeueEffects]

theorem handleErr_ge (c : Controller) (item : Event) (e : String)
    (h : 5 ≤ c.queue.NumRequeues item) :
    c.handleErr (some e) item =
      (dropEffects item e, { c with queue := c.queue.Forget item }) := by
  have h2 : ¬ c.queue.NumRequeues item < 5 := by omega
  simp [Controller.handleErr, h2, dropEffects]

theorem consecutiveHandleErr_succ (err : Option String) (key : Event) (n : Nat) (c : Controller) :
    consecutiveHandleErr err key (n + 1) c =
      ((c.handleErr err key).1 ++ (consecutiveHandleErr err key n (c.handleErr err key).2).1,
       (consecutiveHandleErr err key n (c.handleErr err key).2).2) := rfl

/-- A run of `k` failures that stays within the budget: every call re-queues,
the counter goes up by `k`, and the items wait with exponents `n, n+1, ...`. -/
theorem consecutiveHandleErr_within (item : Event) (e : String) :
    ∀ (k : Nat) (c : Controller) (n : Nat), c.queue.NumRequeues item = n → n + k ≤ 5 →
      (consecutiveHandleErr (some e) item k c).1 = (List.replicate k (requeueEffects item e)).flatten ∧
      (consecutiveHandleErr (some e) item k c).2.queue.NumRequeues item = n + k ∧
      (consecutiveHandleErr (some e) item k c).2.queue.shuttingDown = c.queue.shuttingDown ∧
      (∀ other, other ≠ item →
        (consecutiveHandleErr (some e) item k c).2.queue.NumRequeues other
          = c.queue.NumRequeues other) := by
  intro k
  induction k with
  | zero => intro c n hn _; simp [consecutiveHandleErr, hn]
  | succ k ih =>
    intro c n hn hk
    have hlt : c.queue.NumRequeues item < 5 := by omega
    rw [consecutiveHandleErr_succ, handleErr_lt c item e hlt]
    have hn1 : ({ c with queue := c.queue.AddRateLimited item } : Controller).queue.NumRequeues item
        = n + 1 := by
      simp [numRequeues_addRateLimited_self, hn]
    obtain ⟨h1, h2, h3, h4⟩ := ih { c with queue := c.queue.AddRateLimited item } (n + 1) hn1 (by omega)
    refine ⟨?_, ?_, ?_, ?_⟩
    · simp [h1, List.replicate_succ]
    · simp only [h2]; omega
    · simp only [h3]
      unfold Queue.AddRateLimited
      by_cases hs : c.queue.shuttingDown <;> simp [hs]
    · intro other ho
      rw [h4 other ho]
      exact numRequeues_addRateLimited_other c.queue item other ho

theorem consecutiveHandleErr_snoc (err : Option String) (key : Event) :
    ∀ (n : Nat) (c : Controller),
      consecutiveHandleErr err key (n + 1) c =
        ((consecutiveHandleErr err key n c).1 ++
            ((consecutiveHandleErr err key n c).2.handleErr err key).1,
         ((consecutiveHandleErr err key n c).2.handleErr err key).2) := by
  intro n
  induction n with
  | zero => intro c; simp [consecutiveHandleErr]
  | succ n ih =>
    intro c
    rw [consecutiveHandleErr_succ, ih (c.handleErr err key).2, consecutiveHandleErr_succ]
    simp [List.append_assoc]

theorem failures_add (q : Queue) (item : Event) : (q.Add item).failures = q.failures := by
  unfold Queue.Add
  split_ifs <;> rfl

theorem numRequeues_add (q : Queue) (item other : Event) :
    (q.Add item).NumRequeues other = q.NumRequeues other := by
  simp [Queue.NumRequeues, failures_add]

/-! ## Claims about the retry policy -/

/-- C3: a success resets the retry budget. For every controller state and every
item, `handleErr(nil, item)` performs the single effect `Forget(item)`; the
queue afterwards is the old queue with that item forgotten, so its failure
counter is 0 whatever it was, the counter of every other item is unchanged, and
a failure handled right afterwards re-queues the item (it is not dropped). -/
theorem handleErr_success_resets_budget (c : Controller) (item : Event) :
    (c.handleErr none item).1 = [Effect.queueForget item] ∧
    (c.handleErr none item).2.queue = c.queue.Forget item ∧
    (c.handleErr none item).2.indexer = c.indexer ∧
    (c.handleErr none item).2.queue.NumRequeues item = 0 ∧
    (∀ other : Event, other ≠ item →
      (c.handleErr none item).2.queue.NumRequeues other = c.queue.NumRequeues other) ∧
    (∀ e : String,
      ((c.handleErr none item).2.handleErr (some e) item).1 = requeueEffects item e ∧
      Effect.queueAddRateLimited item ∈ ((c.handleErr none item).2.handleErr (some e) item).1 ∧
      Effect.handleError e ∉ ((c.handleErr none item).2.handleErr (some e) item).1 ∧
      ((c.handleErr none item).2.handleErr (some e) item).2.queue.NumRequeues item = 1) := by
  have hq : (c.handleErr none item).2.queue = c.queue.Forget item := rfl
  have h0 : (c.handleErr none item).2.queue.NumRequeues item = 0 := by
    rw [hq]; exact numRequeues_forget_self _ _
  refine ⟨rfl, rfl, rfl, h0, ?_, ?_⟩
  · intro other ho
    rw [hq]; exact numRequeues_forget_other _ _ _ ho
  · intro e
    have hlt : (c.handleErr none item).2.queue.NumRequeues item < 5 := by omega
    rw [handleErr_lt _ item e hlt]
    refine ⟨rfl, by simp [requeueEffects], by simp [requeueEffects], ?_⟩
    simp [numRequeues_addRateLimited_self, h0]

/-- C1: the retry limit of `handleErr`. For every item whose failure counter is
0 and every non-nil error, in a run of consecutive `handleErr(err, item)` calls:
before call number `k+1` (`k < 5`) the counter is `k`, that call re-queues the
item with `AddRateLimited` (with the delay exponent `k`, unless the queue is
shutting down) and raises the counter to `k+1`; before the sixth call the
counter is 5, and that call forgets the item and reports the drop, leaving the
counter at 0. So the item is re-queued exactly 5 times before it is dropped. -/
theorem handleErr_retry_limit (c : Controller) (item : Event) (e : String)
    (h0 : c.queue.NumRequeues item = 0) :
    (∀ k : Fin 5,
      (consecutiveHandleErr (some e) item k.val c).2.queue.NumRequeues item = k.val ∧
      ((consecutiveHandleErr (some e) item k.val c).2.handleErr (some e) item).1
        = requeueEffects item e ∧
      ((consecutiveHandleErr (some e) item k.val c).2.handleErr (some e) item).2.queue
        = (consecutiveHandleErr (some e) item k.val c).2.queue.AddRateLimited item ∧
      ((consecutiveHandleErr (some e) item k.val c).2.handleErr (some e) item).2.queue.NumRequeues
        item = k.val + 1 ∧
      ((consecutiveHandleErr (some e) item k.val c).2.handleErr (some e) item).2.queue.waiting
        = if c.queue.shuttingDown then (consecutiveHandleErr (some e) item k.val c).2.queue.waiting
          else (consecutiveHandleErr (some e) item k.val c).2.queue.waiting ++ [(item, k.val)]) ∧
    ((consecutiveHandleErr (some e) item 5 c).2.queue.NumRequeues item = 5 ∧
      ((consecutiveHandleErr (some e) item 5 c).2.handleErr (some e) item).1 = dropEffects item e ∧
      ((consecutiveHandleErr (some e) item 5 c).2.handleErr (some e) item).2.queue
        = (consecutiveHandleErr (some e) item 5 c).2.queue.Forget item ∧
      ((consecutiveHandleErr (some e) item 5 c).2.handleErr (some e) item).2.queue.NumRequeues
        item = 0) ∧
    (consecutiveHandleErr (some e) item 6 c).1
      = (List.replicate 5 (requeueEffects item e)).flatten ++ dropEffects item e ∧
    (consecutiveHandleErr (some e) item 6 c).1.count (Effect.queueAddRateLimited item) = 5 ∧
    (consecutiveHandleErr (some e) item 6 c).1.count (Effect.queueForget item) = 1 ∧
    (consecutiveHandleErr (some e) item 6 c).1.count (Effect.handleError e) = 1 := by
  have h5 := consecutiveHandleErr_within item e 5 c 0 h0 (by omega)
  have hge : 5 ≤ (consecutiveHandleErr (some e) item 5 c).2.queue.NumRequeues item := by
    rw [h5.2.1]
  have h6 : (consecutiveHandleErr (some e) item 6 c).1
      = (List.replicate 5 (requeueEffects item e)).flatten ++ dropEffects item e := by
    rw [consecutiveHandleErr_snoc, handleErr_ge _ item e hge, h5.1]
  refine ⟨?_, ⟨by simpa using h5.2.1, ?_, ?_, ?_⟩, h6, ?_, ?_, ?_⟩
  · intro k
    have hk := consecutiveHandleErr_within item e k.val c 0 h0 (by omega)
    have hlt : (consecutiveHandleErr (some e) item k.val c).2.queue.NumRequeues item < 5 := by
      rw [hk.2.1]; omega
    have hn : (consecutiveHandleErr (some e) item k.val c).2.queue.NumRequeues item = k.val := by
      simpa using hk.2.1
    rw [handleErr_lt _ item e hlt]
    refine ⟨hn, rfl, rfl, ?_, ?_⟩
    · simp [numRequeues_addRateLimited_self, hn]
    · have hs := hk.2.2.1
      have hf : (consecutiveHandleErr (some e) item k.val c).2.queue.failures item = k.val := hn
      by_cases hsd : c.queue.shuttingDown
      · simp [Queue.AddRateLimited, hs, hsd]
      · simp [Queue.AddRateLimited, hs, hsd, hf]
  · rw [handleErr_ge _ item e hge]
  · rw [handleErr_ge _ item e hge]
  · rw [handleErr_ge _ item e hge]; exact numRequeues_forget_self _ _
  · rw [h6]; simp [requeueEffects, dropEffects, List.replicate]
  · rw [h6]; simp [requeueEffects, dropEffects, List.replicate]
  · rw [h6]; simp [requeueEffects, dropEffects, List.replicate]

/-- Witness of C1: a fresh controller, the item `ns/b`. -/
theorem handleErr_retry_limit_witness :
    NewController.queue.NumRequeues scenarioItem = 0 ∧
    (consecutiveHandleErr (some "boom") scenarioItem 6 NewController).1.count
      (Effect.queueAddRateLimited scenarioItem) = 5 :=
  ⟨rfl, (handleErr_retry_limit NewController scenarioItem "boom" rfl).2.2.2.1⟩

/-- C2, as stated, fails: on a fresh controller the fifth consecutive failure
of the item `ns/b` is handled by re-queueing it with `AddRateLimited`; the call
neither forgets the item nor reports a drop, and the failure counter is 5
afterwards, not 0. -/
theorem fifth_failure_is_requeued :
    NewController.queue.NumRequeues scenarioItem = 0 ∧
    (consecutiveHandleErr (some "boom") scenarioItem 4 NewController).2.queue.NumRequeues
      scenarioItem = 4 ∧
    Effect.queueAddRateLimited scenarioItem ∈
      ((consecutiveHandleErr (some "boom") scenarioItem 4 NewController).2.handleErr
        (some "boom") scenarioItem).1 ∧
    Effect.queueForget scenarioItem ∉
      ((consecutiveHandleErr (some "boom") scenarioItem 4 NewController).2.handleErr
        (some "boom") scenarioItem).1 ∧
    Effect.handleError "boom" ∉
      ((consecutiveHandleErr (some "boom") scenarioItem 4 NewController).2.handleErr
        (some "boom") scenarioItem).1 ∧
    ((consecutiveHandleErr (some "boom") scenarioItem 4 NewController).2.handleErr
        (some "boom") scenarioItem).2.queue.NumRequeues scenarioItem = 5 := by
  decide

/-- C2, amended: for every item that starts with failure counter 0, in a run of
six consecutive failures (`handleErr` with a non-nil error) each of the first
five calls re-queues the item with `AddRateLimited` and neither forgets it nor
reports a drop: before call number `k+1` (`k < 5`) the counter is `k`, after it
`k+1`, so after the fifth call the counter is 5. It is the sixth call that
forgets the item and reports the drop without calling `AddRateLimited`; the six
calls together make exactly five `AddRateLimited` calls, one `Forget` and one
drop report. Afterwards the counter is 0, it is still 0 after a later `Add` of
the item, and the next failure re-queues the item: a fresh retry budget. -/
theorem sixth_failure_drops (c : Controller) (item : Event) (e : String)
    (h0 : c.queue.NumRequeues item = 0) :
    (∀ k : Fin 5,
      (consecutiveHandleErr (some e) item k.val c).2.queue.NumRequeues item = k.val ∧
      ((consecutiveHandleErr (some e) item k.val c).2.handleErr (some e) item).1
        = requeueEffects item e ∧
      Effect.queueAddRateLimited item ∈
        ((consecutiveHandleErr (some e) item k.val c).2.handleErr (some e) item).1 ∧
      Effect.queueForget item ∉
        ((consecutiveHandleErr (some e) item k.val c).2.handleErr (some e) item).1 ∧
      Effect.handleError e ∉
        ((consecutiveHandleErr (some e) item k.val c).2.handleErr (some e) item).1 ∧
      ((consecutiveHandleErr (some e) item k.val c).2.handleErr (some e) item).2.queue
        = (consecutiveHandleErr (some e) item k.val c).2.queue.AddRateLimited item ∧
      ((consecutiveHandleErr (some e) item k.val c).2.handleErr (some e) item).2.queue.NumRequeues
        item = k.val + 1 ∧
      (consecutiveHandleErr (some e) item (k.val + 1) c).2
        = ((consecutiveHandleErr (some e) item k.val c).2.handleErr (some e) item).2) ∧
    (((consecutiveHandleErr (some e) item 4 c).2.handleErr (some e) item).1
        = requeueEffects item e ∧
      (consecutiveHandleErr (some e) item 5 c).2.queue.NumRequeues item = 5) ∧
    (((consecutiveHandleErr (some e) item 5 c).2.handleErr (some e) item).1
        = dropEffects item e ∧
      Effect.queueForget item ∈
        ((consecutiveHandleErr (some e) item 5 c).2.handleErr (some e) item).1 ∧
      Effect.handleError e ∈
        ((consecutiveHandleErr (some e) item 5 c).2.handleErr (some e) item).1 ∧
      Effect.queueAddRateLimited item ∉
        ((consecutiveHandleErr (some e) item 5 c).2.handleErr (some e) item).1 ∧
      ((consecutiveHandleErr (some e) item 5 c).2.handleErr (some e) item).2.queue
        = (consecutiveHandleErr (some e) item 5 c).2.queue.Forget item ∧
      (consecutiveHandleErr (some e) item 6 c).2
        = ((consecutiveHandleErr (some e) item 5 c).2.handleErr (some e) item).2) ∧
    ((consecutiveHandleErr (some e) item 6 c).1
        = (List.replicate 5 (requeueEffects item e)).flatten ++ dropEffects item e ∧
      (consecutiveHandleErr (some e) item 6 c).1.count (Effect.queueAddRateLimited item) = 5 ∧
      (consecutiveHandleErr (some e) item 6 c).1.count (Effect.queueForget item) = 1 ∧
      (consecutiveHandleErr (some e) item 6 c).1.count (Effect.handleError e) = 1) ∧
    (consecutiveHandleErr (some e) item 6 c).2.queue.NumRequeues item = 0 ∧
    ((consecutiveHandleErr (some e) item 6 c).2.queue.Add item).NumRequeues item = 0 ∧
    (Controller.handleErr
        { indexer := c.indexer, queue := (consecutiveHandleErr (some e) item 6 c).2.queue.Add item }
        (some e) item).1 = requeueEffects item e := by
  have h4 := consecutiveHandleErr_within item e 4 c 0 h0 (by omega)
  have h5 := consecutiveHandleErr_within item e 5 c 0 h0 (by omega)
  have hlt : (consecutiveHandleErr (some e) item 4 c).2.queue.NumRequeues item < 5 := by
    rw [h4.2.1]; omega
  have hge : 5 ≤ (consecutiveHandleErr (some e) item 5 c).2.queue.NumRequeues item := by
    rw [h5.2.1]
  have h6 : (consecutiveHandleErr (some e) item 6 c).2.queue.NumRequeues item = 0 := by
    rw [consecutiveHandleErr_snoc, handleErr_ge _ item e hge]
    exact numRequeues_forget_self _ _
  have hrun : (consecutiveHandleErr (some e) item 6 c).1
      = (List.replicate 5 (requeueEffects item e)).flatten ++ dropEffects item e := by
    rw [consecutiveHandleErr_snoc, handleErr_ge _ item e hge, h5.1]
  have hadd : ((consecutiveHandleErr (some e) item 6 c).2.queue.Add item).NumRequeues item = 0 := by
    rw [numRequeues_add]; exact h6
  refine ⟨?_, ⟨?_, by simpa using h5.2.1⟩, ?_, ⟨hrun, ?_, ?_, ?_⟩, h6, hadd, ?_⟩
  · intro k
    have hk := consecutiveHandleErr_within item e k.val c 0 h0 (by omega)
    have hn : (consecutiveHandleErr (some e) item k.val c).2.queue.NumRequeues item = k.val := by
      simpa using hk.2.1
    have hklt : (consecutiveHandleErr (some e) item k.val c).2.queue.NumRequeues item < 5 := by
      rw [hn]; omega
    refine ⟨hn, ?_, ?_, ?_, ?_, ?_, ?_, ?_⟩
    · rw [handleErr_lt _ item e hklt]
    · rw [handleErr_lt _ item e hklt]; simp [requeueEffects]
    · rw [handleErr_lt _ item e hklt]; simp [requeueEffects]
    · rw [handleErr_lt _ item e hklt]; simp [requeueEffects]
    · rw [handleErr_lt _ item e hklt]
    · rw [handleErr_lt _ item e hklt]
      simp [numRequeues_addRateLimited_self, hn]
    · rw [consecutiveHandleErr_snoc]
  · rw [handleErr_lt _ item e hlt]
  · rw [handleErr_ge _ item e hge]
    refine ⟨rfl, by simp [dropEffects], by simp [dropEffects], by simp [dropEffects], rfl, ?_⟩
    rw [consecutiveHandleErr_snoc, handleErr_ge _ item e hge]
  · rw [hrun]; simp [requeueEffects, dropEffects, List.replicate]
  · rw [hrun]; simp [requeueEffects, dropEffects, List.replicate]
  · rw [hrun]; simp [requeueEffects, dropEffects, List.replicate]
  · rw [handleErr_lt _ item e (by show Queue.NumRequeues _ item < 5; rw [hadd]; omega)]

/-- Witness of the amended C2: a fresh controller, the item `ns/b`. -/
theorem sixth_failure_drops_witness :
    NewController.queue.NumRequeues scenarioItem = 0 ∧
    (consecutiveHandleErr (some "boom") scenarioItem 6 NewController).1
      = (List.replicate 5 (requeueEffects scenarioItem "boom")).flatten
        ++ dropEffects scenarioItem "boom" ∧
    (consecutiveHandleErr (some "boom") scenarioItem 6 NewController).1.count
      (Effect.queueAddRateLimited scenarioItem) = 5 ∧
    ((consecutiveHandleErr (some "boom") scenarioItem 5 NewController).2.handleErr
        (some "boom") scenarioItem).1 = dropEffects scenarioItem "boom" ∧
    (consecutiveHandleErr (some "boom") scenarioItem 6 NewController).2.queue.NumRequeues
      scenarioItem = 0 :=
  ⟨rfl,
    (sixth_failure_drops NewController scenarioItem "boom" rfl).2.2.2.1.1,
    (sixth_failure_drops NewController scenarioItem "boom" rfl).2.2.2.1.2.1,
    (sixth_failure_drops NewController scenarioItem "boom" rfl).2.2.1.1,
    (sixth_failure_drops NewController scenarioItem "boom" rfl).2.2.2.2.1⟩

/-! ## Claims about queue items and the reconciler -/

/-- C4 fails on the code: work-queue items are `Event` values compared on all
three fields. After `Add(podA)` and `Update(podA, podA)` the queue holds two
pending items with the same identity key `ns/a`, and two consecutive `Get`s hand
both out, so both are in-flight at once. -/
theorem same_key_events_are_two_items :
    createA.key = updateA.key ∧
    decide (createA = updateA) = false ∧
    afterCreateUpdate.queue.queue = [createA, updateA] ∧
    afterCreateUpdate.queue.dirty = [updateA, createA] ∧
    (afterCreateUpdate.queue.Get.bind (fun r => r.2.Get)).map (fun r => (r.1, r.2.processing))
      = some (some updateA, [updateA, createA]) := by
  decide

/-- C5 fails on the code: for a "create" and for an "update" event whose key is
absent from the Local Cache (`GetByKey` yields the nil object, `exists = false`,
no error) `takeAction` panics in the type assertion `obj.(*v1.Pod)`, before
anything is printed; `processNextItem` on a queue holding such an event panics
as well, after the deferred `Done`. -/
theorem takeAction_cache_miss_panics :
    NewController.indexer "ns/a" = { obj := Obj.nil, found := false, err := none } ∧
    (NewController.takeAction createA).isPanic = true ∧
    (NewController.takeAction createA).effects = [] ∧
    (NewController.takeAction updateA).isPanic = true ∧
    (NewController.takeAction updateA).effects = [] ∧
    (Controller.processNextItem
        { indexer := NewController.indexer, queue := Queue.new.Add createA }).map
      (fun r => (r.1.isPanic, r.1.effects))
      = some (true, [Effect.queueGet, Effect.queueDone createA]) := by
  decide

/-- Shape of `takeAction` on a "delete" event. -/
theorem takeAction_delete_eq (c : Controller) (event : Event) (h : event.eventType = "delete") :
    c.takeAction event =
      .returned
        ((match (c.indexer event.key).err with
          | some err =>
            [Effect.logPrintf "Fetching object with key %s from store failed with %v"
              [.str event.key, .err err]]
          | none => []) ++
          [Effect.println ("\nA Pod with name " ++ event.podName ++ " has been deleted.")])
        none := by
  simp [Controller.takeAction, h, objectDeleted]

theorem stdout_append (xs ys : List Effect) : stdout (xs ++ ys) = stdout xs ++ stdout ys := by
  induction xs with
  | nil => rfl
  | cons x xs ih => cases x <;> simp [stdout, ih]

/-- C6: a "delete" event uses only the carried name. For every event with
`eventType = "delete"` and every Local Cache (whatever `GetByKey` yields: entry
absent, entry present, or an error) `takeAction` does not panic and returns
`nil`; its printed output is exactly the line
`"\nA Pod with name " + event.podName + " has been deleted."`, the same for any
two caches. Apart from that line the only effect is the log entry for a lookup
error, which names the key and the error, never the looked-up object. -/
theorem takeAction_delete_uses_carried_name (c : Controller) (event : Event)
    (h : event.eventType = "delete") :
    (c.takeAction event).isPanic = false ∧
    (c.takeAction event).value = some none ∧
    stdout (c.takeAction event).effects
      = ["\nA Pod with name " ++ event.podName ++ " has been deleted."] ∧
    (∀ c2 : Controller,
      stdout (c2.takeAction event).effects = stdout (c.takeAction event).effects) ∧
    (c.takeAction event).effects =
      (match (c.indexer event.key).err with
        | some err =>
          [Effect.logPrintf "Fetching object with key %s from store failed with %v"
            [.str event.key, .err err]]
        | none => []) ++
        [Effect.println ("\nA Pod with name " ++ event.podName ++ " has been deleted.")] := by
  have hout : ∀ c2 : Controller, stdout (c2.takeAction event).effects
      = ["\nA Pod with name " ++ event.podName ++ " has been deleted."] := by
    intro c2
    rw [takeAction_delete_eq c2 event h]
    simp only [Outcome.effects, stdout_append]
    cases (c2.indexer event.key).err <;> simp [stdout]
  refine ⟨?_, ?_, hout c, ?_, ?_⟩
  · rw [takeAction_delete_eq c event h]; rfl
  · rw [takeAction_delete_eq c event h]; rfl
  · intro c2; rw [hout c2, hout c]
  · rw [takeAction_delete_eq c event h]; rfl

/-- Witness of C6: the delete event of pod `a`, looked up in a cache whose
lookup fails. -/
theorem takeAction_delete_uses_carried_name_witness :
    ({ key := "ns/a", eventType := "delete", podName := "a" } : Event).eventType = "delete" ∧
    stdout (failingCache.takeAction { key := "ns/a", eventType := "delete", podName := "a" }).effects
      = ["\nA Pod with name a has been deleted."] :=
  ⟨rfl, (takeAction_delete_uses_carried_name failingCache
    { key := "ns/a", eventType := "delete", podName := "a" } rfl).2.2.1⟩

/-! ## Claims about the worker step and the startup -/

theorem printContainersOfPod_pod (p : Pod) :
    printContainersOfPod (.pod p) =
      .returned (Effect.println ("Containers in Pod " ++ p.Name ++ " : ")
        :: containerLines 0 p.Containers) () := by
  simp [printContainersOfPod, assertPod, Outcome.after]

/-- With the object present, `takeAction` returns `nil`. -/
theorem takeAction_present (c : Controller) (e : Event) (p : Pod)
    (hobj : (c.indexer e.key).obj = .pod p) :
    c.takeAction e = .returned (c.takeAction e).effects none := by
  unfold Controller.takeAction
  simp only [hobj]
  by_cases h1 : e.eventType = "create"
  · simp [h1, objectCreated, assertPod, printContainersOfPod_pod, Outcome.after, Outcome.effects]
  · by_cases h2 : e.eventType = "update"
    · simp [h1, h2, objectUpdated, assertPod, printContainersOfPod_pod, Outcome.after,
        Outcome.effects]
    · by_cases h3 : e.eventType = "delete"
      · simp [h1, h2, h3, objectDeleted, Outcome.effects]
      · simp [h1, h2, h3, Outcome.effects]

theorem not_mem_processing_done (q : Queue) (item : Event) :
    item ∉ (q.Done item).processing := by
  unfold Queue.Done
  by_cases h : item ∈ q.dirty <;> simp [h]

theorem failures_done (q : Queue) (item : Event) : (q.Done item).failures = q.failures := by
  unfold Queue.Done
  by_cases h : item ∈ q.dirty <;> simp [h]

/-- C7: the worker step. If `Get` reports shutdown, `processNextItem` returns
false having done nothing but the `Get`: no reconcile, `Forget`,
`AddRateLimited` or `Done`, and the controller is unchanged. If `Get` hands out
an event `e` whose object is present in the Local Cache, `processNextItem`
performs, after the `Get`, exactly the effects of `takeAction(e)` (which returns
`nil`), then `Forget(e)`, then `Done(e)`, and returns true; afterwards `e` is not
in-flight and `NumRequeues(e) = 0`. -/
theorem processNextItem_protocol (c0 : Controller) (q0 : Queue)
    (hshut : c0.queue.Get = some (none, q0))
    (c : Controller) (e : Event) (q : Queue) (p : Pod)
    (hget : c.queue.Get = some (some e, q))
    (hobj : (c.indexer e.key).obj = .pod p) :
    (c0.processNextItem = some (.returned [Effect.queueGet] false, c0)) ∧
    (c.takeAction e = .returned (c.takeAction e).effects none ∧
      c.processNextItem =
        some (.returned
          ([Effect.queueGet] ++ (c.takeAction e).effects
            ++ [Effect.queueForget e] ++ [Effect.queueDone e]) true,
          { indexer := c.indexer, queue := (q.Forget e).Done e }) ∧
      e ∉ ((q.Forget e).Done e).processing ∧
      ((q.Forget e).Done e).NumRequeues e = 0) := by
  refine ⟨?_, ?_⟩
  · have hq : q0 = c0.queue := by
      unfold Queue.Get at hshut
      split at hshut
      · split at hshut
        · simpa using hshut.symm
        · simp at hshut
      · simp at hshut
    unfold Controller.processNextItem
    rw [hshut]
    simp [hq]
  · have ht := takeAction_present c e p hobj
    have ht1 : Controller.takeAction { c with queue := q } e
        = .returned (c.takeAction e).effects none := ht
    have hp : c.processNextItem =
        some (.returned
          ([Effect.queueGet] ++ (c.takeAction e).effects
            ++ [Effect.queueForget e] ++ [Effect.queueDone e]) true,
          { indexer := c.indexer, queue := (q.Forget e).Done e }) := by
      unfold Controller.processNextItem
      rw [hget]
      simp only [ht1]
      rfl
    refine ⟨ht, hp, not_mem_processing_done _ _, ?_⟩
    show ((q.Forget e).Done e).failures e = 0
    rw [failures_done]
    exact numRequeues_forget_self q e

/-- Witness of C7: a shut-down empty queue, and the end-to-end scenario of the
specification (`Add`, then the worker finds the pod present). -/
theorem processNextItem_protocol_witness :
    shutDownController.queue.Get = some (none, Queue.new.ShutDown) ∧
    presentController.queue.Get = some (some createA, presentQueueAfterGet) ∧
    (presentController.indexer createA.key).obj = .pod podA ∧
    shutDownController.processNextItem
      = some (.returned [Effect.queueGet] false, shutDownController) ∧
    presentController.processNextItem =
      some (.returned
        ([Effect.queueGet] ++ (presentController.takeAction createA).effects
          ++ [Effect.queueForget createA] ++ [Effect.queueDone createA]) true,
        { indexer := presentController.indexer,
          queue := (presentQueueAfterGet.Forget createA).Done createA }) ∧
    ((presentQueueAfterGet.Forget createA).Done createA).NumRequeues createA = 0 :=
  ⟨rfl, rfl, rfl,
    (processNextItem_protocol shutDownController Queue.new.ShutDown rfl
      presentController createA presentQueueAfterGet podA rfl rfl).1,
    (processNextItem_protocol shutDownController Queue.new.ShutDown rfl
      presentController createA presentQueueAfterGet podA rfl rfl).2.2.1,
    (processNextItem_protocol shutDownController Queue.new.ShutDown rfl
      presentController createA presentQueueAfterGet podA rfl rfl).2.2.2.2⟩

/-- C8: the startup gate of `Run`. For every threadiness `n`: if the cache sync
fails, `Run` starts the informer, waits, reports the error
"Timed out waiting for caches to sync", shuts the queue down and returns, so no
worker is started; if the sync succeeds, `Run` starts exactly `max(n, 0)`
workers, all after the wait for the sync, then waits for the stop signal, and
only then shuts the queue down. In both cases the queue is shut down when `Run`
returns. -/
theorem Run_startup_gate (c : Controller) (n : Int) :
    (c.Run n false).1 =
      [Effect.startInformer, Effect.waitForCacheSync,
        Effect.handleError "Timed out waiting for caches to sync", Effect.queueShutDown] ∧
    (c.Run n false).1.count Effect.startWorker = 0 ∧
    (c.Run n true).1 =
      [Effect.startInformer, Effect.waitForCacheSync]
        ++ List.replicate (max n 0).toNat Effect.startWorker
        ++ [Effect.awaitStop, Effect.queueShutDown] ∧
    (c.Run n true).1.count Effect.startWorker = (max n 0).toNat ∧
    (∀ msg : String, Effect.handleError msg ∉ (c.Run n true).1) ∧
    (c.Run n false).2.queue.shuttingDown = true ∧
    (c.Run n true).2.queue.shuttingDown = true := by
  have hmax : (max n 0).toNat = n.toNat := by
    rcases le_total n 0 with h | h
    · rw [max_eq_right h]; simp [Int.toNat_eq_zero.mpr h]
    · rw [max_eq_left h]
  refine ⟨rfl, by simp [Controller.Run], ?_, ?_, ?_, rfl, rfl⟩
  · simp [Controller.Run, hmax]
  · simp [Controller.Run, hmax, List.count_replicate]
  · intro msg
    simp [Controller.Run, List.mem_replicate]

/-! ## Claims about the absence of failures and the callbacks -/

theorem containerLines_isOutput (names : List String) :
    ∀ index : Nat, ∀ x ∈ containerLines index names, Effect.isOutput x = true := by
  induction names with
  | nil => intro index x hx; simp [containerLines] at hx
  | cons name rest ih =>
    intro index x hx
    simp only [containerLines, List.mem_cons] at hx
    rcases hx with hx | hx
    · subst hx; rfl
    · exact ih (index + 1) x hx

theorem printContainersOfPod_isOutput (obj : Obj) :
    ∀ x ∈ (printContainersOfPod obj).effects, Effect.isOutput x = true := by
  cases obj with
  | pod p =>
    intro x hx
    rw [printContainersOfPod_pod] at hx
    simp only [Outcome.effects, List.mem_cons] at hx
    rcases hx with hx | hx
    · subst hx; rfl
    · exact containerLines_isOutput _ 0 x hx
  | nil => intro x hx; simp [printContainersOfPod, assertPod, Outcome.effects] at hx
  | other t => intro x hx; simp [printContainersOfPod, assertPod, Outcome.effects] at hx

theorem effects_after {α : Type} (pre : List Effect) (o : Outcome α) :
    (Outcome.after pre o).effects = pre ++ o.effects := by
  cases o <;> rfl

theorem objectCreated_isOutput (obj : Obj) :
    ∀ x ∈ (objectCreated obj).effects, Effect.isOutput x = true := by
  cases obj with
  | pod p =>
    intro x hx
    simp only [objectCreated, assertPod, effects_after, List.mem_append, List.mem_singleton] at hx
    rcases hx with hx | hx
    · subst hx; rfl
    · exact printContainersOfPod_isOutput _ x hx
  | nil => intro x hx; simp [objectCreated, assertPod, Outcome.effects] at hx
  | other t => intro x hx; simp [objectCreated, assertPod, Outcome.effects] at hx

theorem objectUpdated_isOutput (obj : Obj) :
    ∀ x ∈ (objectUpdated obj).effects, Effect.isOutput x = true := by
  cases obj with
  | pod p =>
    intro x hx
    simp only [objectUpdated, assertPod, effects_after, List.mem_append, List.mem_singleton] at hx
    rcases hx with hx | hx
    · subst hx; rfl
    · exact printContainersOfPod_isOutput _ x hx
  | nil => intro x hx; simp [objectUpdated, assertPod, Outcome.effects] at hx
  | other t => intro x hx; simp [objectUpdated, assertPod, Outcome.effects] at hx

theorem dispatch_isOutput (event : Event) (obj : Obj) :
    ∀ x ∈ (dispatch event obj).effects, Effect.isOutput x = true := by
  unfold dispatch
  split_ifs
  · exact objectCreated_isOutput obj
  · exact objectUpdated_isOutput obj
  · intro x hx
    simp only [objectDeleted, Outcome.effects, List.mem_singleton] at hx
    subst hx; rfl
  · intro x hx; simp [Outcome.effects] at hx

theorem lookupLog_isOutput (event : Event) (r : Lookup) :
    ∀ x ∈ lookupLog event r, Effect.isOutput x = true := by
  unfold lookupLog
  cases r.err with
  | none => intro x hx; simp at hx
  | some err => intro x hx; simp only [List.mem_singleton] at hx; subst hx; rfl

theorem takeAction_eq (c : Controller) (event : Event) :
    c.takeAction event =
      match dispatch event (c.indexer event.key).obj with
      | .returned effects _ => .returned (lookupLog event (c.indexer event.key) ++ effects) none
      | .panicked effects => .panicked (lookupLog event (c.indexer event.key) ++ effects) := rfl

/-- Every return of `takeAction` carries the error `nil`. -/
theorem takeAction_cases (c : Controller) (event : Event) :
    c.takeAction event = .returned (c.takeAction event).effects none ∨
    c.takeAction event = .panicked (c.takeAction event).effects := by
  rw [takeAction_eq]
  cases dispatch event (c.indexer event.key).obj with
  | returned effects v => left; rfl
  | panicked effects => right; rfl

theorem takeAction_isOutput (c : Controller) (event : Event) :
    ∀ x ∈ (c.takeAction event).effects, Effect.isOutput x = true := by
  intro x hx
  rw [takeAction_eq] at hx
  have hd := dispatch_isOutput event (c.indexer event.key).obj
  have hl := lookupLog_isOutput event (c.indexer event.key)
  cases hdis : dispatch event (c.indexer event.key).obj with
  | returned effects v =>
    rw [hdis] at hx hd
    simp only [Outcome.effects, List.mem_append] at hx hd
    rcases hx with hx | hx
    · exact hl x hx
    · exact hd x hx
  | panicked effects =>
    rw [hdis] at hx hd
    simp only [Outcome.effects, List.mem_append] at hx hd
    rcases hx with hx | hx
    · exact hl x hx
    · exact hd x hx

theorem isRetry_of_isOutput (x : Effect) (h : Effect.isOutput x = true) :
    Effect.isRetry x = false := by
  cases x <;> simp_all [Effect.isOutput, Effect.isRetry]

theorem failures_get (q q2 : Queue) (x : Option Event) (h : q.Get = some (x, q2)) :
    q2.failures = q.failures := by
  unfold Queue.Get at h
  split at h
  · split at h
    · simp only [Option.some.injEq, Prod.mk.injEq] at h
      rw [← h.2]
    · simp at h
  · simp only [Option.some.injEq, Prod.mk.injEq] at h
    rw [← h.2]

theorem failures_release (q : Queue) (i : Nat) : (q.release i).failures = q.failures := by
  unfold Queue.release
  split
  · rfl
  · rw [failures_add]

/-- One worker step never enters the failure path of `handleErr`, and it leaves
every failure counter zero or unchanged. -/
theorem processNextItem_no_retry (c : Controller) (r : Outcome Bool × Controller)
    (h : c.processNextItem = some r) :
    noRetry r.1.effects ∧
    (∀ item : Event, r.2.queue.NumRequeues item = 0 ∨
      r.2.queue.NumRequeues item = c.queue.NumRequeues item) := by
  unfold Controller.processNextItem at h
  split at h
  · simp at h
  · rename_i q hget
    simp only [Option.some.injEq] at h
    subst h
    refine ⟨?_, ?_⟩
    · intro x hx
      simp only [Outcome.effects, List.mem_singleton] at hx
      subst hx; rfl
    · intro item; right
      show q.failures item = c.queue.failures item
      rw [failures_get _ _ _ hget]
  · rename_i event q hget
    have hf := failures_get _ _ _ hget
    have hcases := takeAction_cases { c with queue := q } event
    have hout := takeAction_isOutput { c with queue := q } event
    dsimp only at h
    cases hta : Controller.takeAction { indexer := c.indexer, queue := q } event with
    | returned effects err =>
      rw [hta] at h hcases hout
      have herr : err = none := by
        rcases hcases with h1 | h1
        · simp only [Outcome.effects, Outcome.returned.injEq, true_and] at h1
          exact h1
        · simp at h1
      subst herr
      simp only [Option.some.injEq] at h
      subst h
      refine ⟨?_, ?_⟩
      · intro x hx
        simp only [Outcome.effects, Controller.handleErr, List.mem_append, List.mem_singleton]
          at hx
        rcases hx with ((hx | hx) | hx) | hx
        · subst hx; rfl
        · exact isRetry_of_isOutput x (hout x hx)
        · subst hx; rfl
        · subst hx; rfl
      · intro item
        show ((q.Forget event).Done event).failures item = 0 ∨
          ((q.Forget event).Done event).failures item = c.queue.failures item
        rw [failures_done]
        by_cases hi : item = event
        · left; simp [Queue.Forget, hi]
        · right; simp [Queue.Forget, hi, hf]
    | panicked effects =>
      rw [hta] at h hout
      simp only [Option.some.injEq] at h
      subst h
      refine ⟨?_, ?_⟩
      · intro x hx
        simp only [Outcome.effects, List.mem_append, List.mem_singleton] at hx
        rcases hx with (hx | hx) | hx
        · subst hx; rfl
        · exact isRetry_of_isOutput x (hout x hx)
        · subst hx; rfl
      · intro item; right
        show (q.Done event).failures item = c.queue.failures item
        rw [failures_done, hf]

theorem callback_Add_inv (keyFunc : Obj → Except String String) (c : Controller) (obj : Obj) :
    noRetry (c.Add keyFunc obj).1.effects ∧
    (c.Add keyFunc obj).2.queue.failures = c.queue.failures := by
  unfold Controller.Add
  cases keyFunc obj with
  | error msg => exact ⟨by intro x hx; simp [Outcome.effects] at hx, rfl⟩
  | ok key =>
    cases assertPod obj with
    | none => exact ⟨by intro x hx; simp [Outcome.effects] at hx, rfl⟩
    | some p =>
      refine ⟨?_, failures_add _ _⟩
      intro x hx
      simp only [Outcome.effects, List.mem_singleton] at hx
      subst hx; rfl

theorem callback_Delete_inv (keyFunc : Obj → Except String String) (c : Controller) (obj : Obj) :
    noRetry (c.Delete keyFunc obj).1.effects ∧
    (c.Delete keyFunc obj).2.queue.failures = c.queue.failures := by
  unfold Controller.Delete
  cases keyFunc obj with
  | error msg => exact ⟨by intro x hx; simp [Outcome.effects] at hx, rfl⟩
  | ok key =>
    cases assertPod obj with
    | none => exact ⟨by intro x hx; simp [Outcome.effects] at hx, rfl⟩
    | some p =>
      refine ⟨?_, failures_add _ _⟩
      intro x hx
      simp only [Outcome.effects, List.mem_singleton] at hx
      subst hx; rfl

theorem callback_Update_inv (keyFunc : Obj → Except String String) (c : Controller)
    (oldObj newObj : Obj) :
    noRetry (c.Update keyFunc oldObj newObj).1.effects ∧
    (c.Update keyFunc oldObj newObj).2.queue.failures = c.queue.failures := by
  unfold Controller.Update
  cases keyFunc newObj with
  | error msg => exact ⟨by intro x hx; simp [Outcome.effects] at hx, rfl⟩
  | ok key =>
    cases assertPod oldObj with
    | none => exact ⟨by intro x hx; simp [Outcome.effects] at hx, rfl⟩
    | some p =>
      refine ⟨?_, failures_add _ _⟩
      intro x hx
      simp only [Outcome.effects, List.mem_singleton] at hx
      subst hx; rfl

theorem step_inv (keyFunc : Obj → Except String String) (c : Controller) (a : Action)
    (hc : countersZero c) :
    noRetry (step keyFunc c a).1 ∧ countersZero (step keyFunc c a).2 := by
  cases a with
  | add obj =>
    have h := callback_Add_inv keyFunc c obj
    refine ⟨h.1, fun item => ?_⟩
    show (c.Add keyFunc obj).2.queue.failures item = 0
    rw [h.2]; exact hc item
  | update oldObj newObj =>
    have h := callback_Update_inv keyFunc c oldObj newObj
    refine ⟨h.1, fun item => ?_⟩
    show (c.Update keyFunc oldObj newObj).2.queue.failures item = 0
    rw [h.2]; exact hc item
  | delete obj =>
    have h := callback_Delete_inv keyFunc c obj
    refine ⟨h.1, fun item => ?_⟩
    show (c.Delete keyFunc obj).2.queue.failures item = 0
    rw [h.2]; exact hc item
  | store indexer =>
    exact ⟨by intro x hx; simp [step] at hx, fun item => hc item⟩
  | worker =>
    unfold step
    cases hp : c.processNextItem with
    | none => exact ⟨by intro x hx; simp at hx, hc⟩
    | some r =>
      have h := processNextItem_no_retry c r hp
      refine ⟨h.1, fun item => ?_⟩
      rcases h.2 item with h0 | h0
      · exact h0
      · show r.2.queue.NumRequeues item = 0
        rw [h0]; exact hc item
  | release i =>
    refine ⟨by intro x hx; simp [step] at hx, fun item => ?_⟩
    show (c.queue.release i).failures item = 0
    rw [failures_release]; exact hc item
  | shutDown =>
    refine ⟨?_, fun item => hc item⟩
    intro x hx
    simp only [step, List.mem_singleton] at hx
    subst hx; rfl

theorem exec_inv (keyFunc : Obj → Except String String) :
    ∀ (actions : List Action) (c : Controller), countersZero c →
      noRetry (exec keyFunc actions c).1 ∧ countersZero (exec keyFunc actions c).2 := by
  intro actions
  induction actions with
  | nil => intro c hc; exact ⟨by intro x hx; simp [exec] at hx, hc⟩
  | cons a rest ih =>
    intro c hc
    have hs := step_inv keyFunc c a hc
    have hr := ih (step keyFunc c a).2 hs.2
    refine ⟨?_, hr.2⟩
    intro x hx
    simp only [exec, List.mem_append] at hx
    rcases hx with hx | hx
    · exact hs.1 x hx
    · exact hr.1 x hx

/-- C9: `takeAction` never reports a failure. Whenever it returns, for any
event and any Local Cache (a lookup error included), the returned error is
`nil`; for an event type other than "create", "update" and "delete" it returns
having printed nothing. Hence a worker step never enters the failure path of
`handleErr`, whatever the state; and in every state reachable from a new
controller by informer callbacks, cache changes, worker steps, elapsed delays
and a shutdown, every failure counter is 0, and no `AddRateLimited` call and no
drop report has occurred. -/
theorem takeAction_never_fails (keyFunc : Obj → Except String String) (actions : List Action)
    (c : Controller) (event : Event)
    (hother : event.eventType ≠ "create" ∧ event.eventType ≠ "update" ∧
      event.eventType ≠ "delete") :
    (∀ (c2 : Controller) (e2 : Event),
      c2.takeAction e2 = .returned (c2.takeAction e2).effects none ∨
      c2.takeAction e2 = .panicked (c2.takeAction e2).effects) ∧
    (c.takeAction event = .returned (lookupLog event (c.indexer event.key)) none ∧
      stdout (c.takeAction event).effects = []) ∧
    (∀ (c2 : Controller) (r : Outcome Bool × Controller), c2.processNextItem = some r →
      (∀ item : Event, Effect.queueAddRateLimited item ∉ r.1.effects) ∧
      (∀ msg : String, Effect.handleError msg ∉ r.1.effects)) ∧
    (∀ item : Event, (exec keyFunc actions NewController).2.queue.NumRequeues item = 0) ∧
    (∀ item : Event, Effect.queueAddRateLimited item ∉ (exec keyFunc actions NewController).1) ∧
    (∀ msg : String, Effect.handleError msg ∉ (exec keyFunc actions NewController).1) := by
  have hex := exec_inv keyFunc actions NewController (fun _ => rfl)
  have hret : c.takeAction event = .returned (lookupLog event (c.indexer event.key)) none := by
    rw [takeAction_eq]
    simp [dispatch, hother.1, hother.2.1, hother.2.2]
  refine ⟨takeAction_cases, ⟨hret, ?_⟩, ?_, hex.2, ?_, ?_⟩
  · rw [hret]
    simp only [Outcome.effects, lookupLog]
    cases (c.indexer event.key).err <;> rfl
  · intro c2 r hr
    have h := (processNextItem_no_retry c2 r hr).1
    exact ⟨fun item hm => by simpa [Effect.isRetry] using h _ hm,
      fun msg hm => by simpa [Effect.isRetry] using h _ hm⟩
  · intro item hm
    simpa [Effect.isRetry] using hex.1 _ hm
  · intro msg hm
    simpa [Effect.isRetry] using hex.1 _ hm

/-- Witness of C9: the event type "patch" and the run `sampleRun`. -/
theorem takeAction_never_fails_witness :
    (patchA.eventType ≠ "create" ∧ patchA.eventType ≠ "update" ∧ patchA.eventType ≠ "delete") ∧
    failingCache.takeAction patchA
      = .returned (lookupLog patchA (failingCache.indexer patchA.key)) none ∧
    stdout (failingCache.takeAction patchA).effects = [] ∧
    (∀ item : Event,
      (exec MetaNamespaceKeyFunc sampleRun NewController).2.queue.NumRequeues item = 0) :=
  ⟨by decide,
    (takeAction_never_fails MetaNamespaceKeyFunc sampleRun failingCache patchA (by decide)).2.1.1,
    (takeAction_never_fails MetaNamespaceKeyFunc sampleRun failingCache patchA (by decide)).2.1.2,
    (takeAction_never_fails MetaNamespaceKeyFunc sampleRun failingCache patchA (by decide)).2.2.2.1⟩

theorem mem_dirty_add (q : Queue) (item : Event) (h : q.shuttingDown = false) :
    item ∈ (q.Add item).dirty := by
  unfold Queue.Add
  simp only [h]
  by_cases hd : item ∈ q.dirty
  · simp [hd]
  · by_cases hp : item ∈ q.processing <;> simp [hd, hp]

/-- C10: event construction by the informer callbacks. For a pod `p` whose key
derivation yields `key`, `Add` performs the single queue call `Add(event)` with
`event = (key, "create", p.Name)` and `Delete` the single call with
`(key, "delete", p.Name)`; for pods `old` and `new`, where the key of `new` is
`keyNew`, `Update` performs the single call with `(keyNew, "update", old.Name)`:
the key of the new object and the name of the old one. Unless the queue is
shutting down the event is pending afterwards. When the key derivation fails
(for `bad`), each callback returns without any effect and leaves the controller
unchanged. -/
theorem callbacks_enqueue_one_event (keyFunc : Obj → Except String String) (c : Controller)
    (p old new : Pod) (key keyNew : String) (bad other : Obj) (msg : String)
    (hkey : keyFunc (.pod p) = .ok key)
    (hnew : keyFunc (.pod new) = .ok keyNew)
    (hbad : keyFunc bad = .error msg) :
    (c.Add keyFunc (.pod p) =
      (.returned [Effect.queueAdd { key := key, eventType := "create", podName := p.Name }] (),
        { indexer := c.indexer,
          queue := c.queue.Add { key := key, eventType := "create", podName := p.Name } })) ∧
    (c.Delete keyFunc (.pod p) =
      (.returned [Effect.queueAdd { key := key, eventType := "delete", podName := p.Name }] (),
        { indexer := c.indexer,
          queue := c.queue.Add { key := key, eventType := "delete", podName := p.Name } })) ∧
    (c.Update keyFunc (.pod old) (.pod new) =
      (.returned [Effect.queueAdd { key := keyNew, eventType := "update", podName := old.Name }] (),
        { indexer := c.indexer,
          queue := c.queue.Add { key := keyNew, eventType := "update", podName := old.Name } })) ∧
    (c.queue.shuttingDown = true ∨
      ({ key := key, eventType := "create", podName := p.Name } : Event)
          ∈ (c.Add keyFunc (.pod p)).2.queue.dirty ∧
      ({ key := key, eventType := "delete", podName := p.Name } : Event)
          ∈ (c.Delete keyFunc (.pod p)).2.queue.dirty ∧
      ({ key := keyNew, eventType := "update", podName := old.Name } : Event)
          ∈ (c.Update keyFunc (.pod old) (.pod new)).2.queue.dirty) ∧
    (c.Add keyFunc bad = (.returned [] (), c)) ∧
    (c.Delete keyFunc bad = (.returned [] (), c)) ∧
    (c.Update keyFunc other bad = (.returned [] (), c)) := by
  have hA : c.Add keyFunc (.pod p) =
      (.returned [Effect.queueAdd { key := key, eventType := "create", podName := p.Name }] (),
        { indexer := c.indexer,
          queue := c.queue.Add { key := key, eventType := "create", podName := p.Name } }) := by
    simp [Controller.Add, hkey, assertPod]
  have hD : c.Delete keyFunc (.pod p) =
      (.returned [Effect.queueAdd { key := key, eventType := "delete", podName := p.Name }] (),
        { indexer := c.indexer,
          queue := c.queue.Add { key := key, eventType := "delete", podName := p.Name } }) := by
    simp [Controller.Delete, hkey, assertPod]
  have hU : c.Update keyFunc (.pod old) (.pod new) =
      (.returned [Effect.queueAdd { key := keyNew, eventType := "update", podName := old.Name }] (),
        { indexer := c.indexer,
          queue := c.queue.Add { key := keyNew, eventType := "update", podName := old.Name } }) := by
    simp [Controller.Update, hnew, assertPod]
  refine ⟨hA, hD, hU, ?_, ?_, ?_, ?_⟩
  · by_cases hs : c.queue.shuttingDown = true
    · exact Or.inl hs
    · right
      have hs2 : c.queue.shuttingDown = false := by simpa using hs
      rw [hA, hD, hU]
      exact ⟨mem_dirty_add _ _ hs2, mem_dirty_add _ _ hs2, mem_dirty_add _ _ hs2⟩
  · simp [Controller.Add, hbad]
  · simp [Controller.Delete, hbad]
  · simp [Controller.Update, hbad]

/-- Witness of C10: `podA`, the pair (`podA`, `podRenamed`), and the nil object
as the one without a key, with the key function `MetaNamespaceKeyFunc`. -/
theorem callbacks_enqueue_one_event_witness :
    MetaNamespaceKeyFunc (.pod podA) = .ok "ns/a" ∧
    MetaNamespaceKeyFunc (.pod podRenamed) = .ok "ns/a2" ∧
    MetaNamespaceKeyFunc Obj.nil = .error "object has no meta" ∧
    (NewController.Update MetaNamespaceKeyFunc (.pod podA) (.pod podRenamed) =
      (.returned [Effect.queueAdd { key := "ns/a2", eventType := "update", podName := "a" }] (),
        { indexer := NewController.indexer,
          queue := NewController.queue.Add
            { key := "ns/a2", eventType := "update", podName := "a" } })) ∧
    (NewController.Add MetaNamespaceKeyFunc Obj.nil = (.returned [] (), NewController)) :=
  ⟨rfl, rfl, rfl,
    (callbacks_enqueue_one_event MetaNamespaceKeyFunc NewController podA podA podRenamed
      "ns/a" "ns/a2" Obj.nil (.pod podA) "object has no meta" rfl rfl rfl).2.2.1,
    (callbacks_enqueue_one_event MetaNamespaceKeyFunc NewController podA podA podRenamed
      "ns/a" "ns/a2" Obj.nil (.pod podA) "object has no meta" rfl rfl rfl).2.2.2.2.1⟩

end KubeController
